import Mathlib

/-!
Verification of the text segmentation and audio synthesis pipeline of the
repository (utils.py and api.py), over a shallow embedding.  Strings are
modelled as lists of characters (Python indexes strings by code point).
Regular expression matching is embedded by continuation-passing matchers that
reproduce the leftmost, greedy-with-backtracking semantics of the Python re
module for the specific patterns occurring in the source.
-/

/-- Python slice text[a:b] for nonnegative a, b: empty when a exceeds b. -/
def pySlice (s : List Char) (a b : Nat) : List Char :=
  (s.take b).drop a

/-- Whitespace stripped by the Python str.strip method (ASCII whitespace). -/
def isPySpace (c : Char) : Bool :=
  c = ' ' || c = '\t' || c = '\n' || c = '\r' || c = '\x0b' || c = '\x0c'

/-- Python str.strip: drop leading and trailing whitespace. -/
def pyStrip (s : List Char) : List Char :=
  ((s.dropWhile isPySpace).reverse.dropWhile isPySpace).reverse

/-- utils.clean_markdown: the single left-to-right pass of
re.sub removing the alternation of double asterisk, asterisk, double
underscore and backtick, exactly in that preference order. -/
def clean_markdown : List Char → List Char
  | [] => []
  | '*' :: '*' :: r => clean_markdown r
  | '*' :: r => clean_markdown r
  | '_' :: '_' :: r => clean_markdown r
  | '`' :: r => clean_markdown r
  | c :: r => c :: clean_markdown r

/-- Whether the list contains two adjacent underscore characters. -/
def hasDoubleUnderscore : List Char → Bool
  | '_' :: '_' :: _ => true
  | _ :: r => hasDoubleUnderscore r
  | [] => false

/-!
Continuation-passing regex matchers.  A matcher receives the remaining input
and a continuation giving the number of characters the rest of the pattern
consumes; it returns the total consumed from its own start, or none.
Alternatives are tried in the same preference order as the re module:
greedy repetition tries the longest count first and backtracks.
-/

/-- Matcher type for the restricted regex fragment used by the source. -/
def RM : Type := List Char → (List Char → Option Nat) → Option Nat

/-- Match one literal character. -/
def mlit (c : Char) : RM := fun s k =>
  match s with
  | x :: r => if x = c then (k r).map (· + 1) else none
  | [] => none

/-- Match one character of a class. -/
def mcls (p : Char → Bool) : RM := fun s k =>
  match s with
  | x :: r => if p x then (k r).map (· + 1) else none
  | [] => none

/-- Sequencing of two matchers. -/
def mseq (a b : RM) : RM := fun s k => a s (fun r => b r k)

/-- Greedy optional group, as the question-mark quantifier. -/
def mopt (a : RM) : RM := fun s k =>
  match a s k with
  | some n => some n
  | none => k s

/-- Consume exactly n characters of class p, if possible. -/
def takeCls (p : Char → Bool) : Nat → List Char → Option (List Char)
  | 0, s => some s
  | n + 1, x :: r => if p x then takeCls p n r else none
  | _ + 1, [] => none

/-- Greedy counted repetition of a class: try hi occurrences first, then
backtrack down to lo, as the brace quantifier of the re module. -/
def mrepAux (p : Char → Bool) (lo : Nat) : Nat → List Char → (List Char → Option Nat) → Option Nat
  | 0, s, k => if lo = 0 then k s else none
  | n + 1, s, k =>
    match (if n + 1 ≥ lo then
             match takeCls p (n + 1) s with
             | some r => (k r).map (· + (n + 1))
             | none => none
           else none) with
    | some m => some m
    | none => mrepAux p lo n s k

/-- Repetition of a class between lo and hi occurrences, greedy. -/
def mrep (p : Char → Bool) (lo hi : Nat) : RM := fun s k =>
  mrepAux p lo hi s k

/-- Unbounded greedy star over a class. -/
def mstar (p : Char → Bool) : RM := fun s k =>
  mrepAux p 0 s.length s k

/-- Run an unanchored-at-the-end matcher at the start of the input,
returning the number of characters consumed, as re.match does. -/
def runAt (m : RM) (s : List Char) : Option Nat :=
  m s (fun _ => some 0)

/-- Run a matcher that must consume the whole input, for a pattern whose
last token is the end anchor. -/
def runFull (m : RM) (s : List Char) : Bool :=
  (m s (fun r => if r.isEmpty then some 0 else none)).isSome

/-- Scan for successive non-overlapping leftmost matches, as re.finditer:
after a match the scan resumes at its end, after a failure one position
further right.  Records (start, stop) pairs.  Fueled recursion; the fuel is
the remaining length plus one. -/
def reFindAux (m : RM) (s : List Char) : Nat → Nat → List (Nat × Nat)
  | 0, _ => []
  | fuel + 1, p =>
    if p ≥ s.length then []
    else
      match runAt m (s.drop p) with
      | some n =>
        if n = 0 then reFindAux m s fuel (p + 1)
        else (p, p + n) :: reFindAux m s fuel (p + n)
      | none => reFindAux m s fuel (p + 1)

/-- All leftmost non-overlapping matches of a matcher in the input. -/
def reFind (m : RM) (s : List Char) : List (Nat × Nat) :=
  reFindAux m s (s.length + 1) 0

/-- The digit class: the d escape of the re module. -/
def isDig (c : Char) : Bool := c.isDigit

/-- Opening parenthesis class, full width or half width. -/
def isOpenParen (c : Char) : Bool := c = '（' || c = '('

/-- Closing parenthesis class, full width or half width. -/
def isCloseParen (c : Char) : Bool := c = '）' || c = ')'

/-!
The seven date recognizers of utils.split_daily_report_by_date, in source
order.  Pattern 1 is four digits, a dot, one or two digits, a dot, one or
two digits, then an optional parenthetical annotation.
-/

/-- Recognizer 1: dotted date with optional parenthetical annotation. -/
def datePat1 : RM :=
  mseq (mrep isDig 4 4) (mseq (mlit '.') (mseq (mrep isDig 1 2)
    (mseq (mlit '.') (mseq (mrep isDig 1 2)
      (mopt (mseq (mcls isOpenParen) (mseq (mstar (fun c => !isCloseParen c)) (mcls isCloseParen))))))))

/-- Recognizer 2: four-digit year with Chinese connectors. -/
def datePat2 : RM :=
  mseq (mrep isDig 4 4) (mseq (mlit '年') (mseq (mrep isDig 1 2)
    (mseq (mlit '月') (mseq (mrep isDig 1 2) (mlit '日')))))

/-- Recognizer 3: month and day with Chinese connectors, no year. -/
def datePat3 : RM :=
  mseq (mrep isDig 1 2) (mseq (mlit '月') (mseq (mrep isDig 1 2) (mlit '日')))

/-- Recognizer 4: dashed date with four-digit year. -/
def datePat4 : RM :=
  mseq (mrep isDig 4 4) (mseq (mlit '-') (mseq (mrep isDig 1 2)
    (mseq (mlit '-') (mrep isDig 1 2))))

/-- Recognizer 5: slashed date with four-digit year. -/
def datePat5 : RM :=
  mseq (mrep isDig 4 4) (mseq (mlit '/') (mseq (mrep isDig 1 2)
    (mseq (mlit '/') (mrep isDig 1 2))))

/-- Recognizer 6: slashed month and day, no year. -/
def datePat6 : RM :=
  mseq (mrep isDig 1 2) (mseq (mlit '/') (mrep isDig 1 2))

/-- Recognizer 7: dashed month and day, no year. -/
def datePat7 : RM :=
  mseq (mrep isDig 1 2) (mseq (mlit '-') (mrep isDig 1 2))

/-- The recognizers in the order the source iterates them. -/
def datePatterns : List RM :=
  [datePat1, datePat2, datePat3, datePat4, datePat5, datePat6, datePat7]

/-- All matches of all recognizers, concatenated in pattern order without
deduplication, as the extend loop of split_daily_report_by_date. -/
def collectMatches (text : List Char) : List (Nat × Nat) :=
  (datePatterns.map (fun m => reFind m text)).flatten

/-- Comparison on start offsets used by the positional sort. -/
def startLE (a b : Nat × Nat) : Prop := a.1 ≤ b.1

instance : DecidableRel startLE := fun a b => Nat.decLe a.1 b.1

instance : IsTotal (Nat × Nat) startLE := ⟨fun a b => Nat.le_total a.1 b.1⟩

instance : IsTrans (Nat × Nat) startLE := ⟨fun _ _ _ => Nat.le_trans⟩

/-- The match list sorted by start offset.  The Python list sort is stable;
insertion sort is stable as well, so the two agree on every input. -/
def sortMatches (text : List Char) : List (Nat × Nat) :=
  (collectMatches text).insertionSort startLE

/-- Weekday characters accepted inside the parenthetical annotation. -/
def isWeekChar (c : Char) : Bool :=
  c = '一' || c = '二' || c = '三' || c = '四' || c = '五' || c = '六' || c = '日'

/-- The re.sub pass of normalize_date removing full-width parenthesized
weekday annotations. -/
def stripWeek : List Char → List Char
  | '（' :: w :: '）' :: r =>
    if isWeekChar w then stripWeek r else '（' :: stripWeek (w :: '）' :: r)
  | c :: r => c :: stripWeek r
  | [] => []

/-- The first guard regex of normalize_date exactly as the interpreter sees
it: the pattern raw string doubles every backslash, so the double-backslash
escape denotes a literal backslash character and the following letter d and
dot are ordinary characters (the dot a wildcard).  The pattern therefore
requires literal backslashes and can never match a date token. -/
def brokenDotGuard : RM :=
  mseq (mlit '\\') (mseq (mrep (fun c => c = 'd') 4 4)
    (mseq (mlit '\\') (mseq (mcls (fun c => c ≠ '\n'))
      (mseq (mlit '\\') (mseq (mrep (fun c => c = 'd') 1 2)
        (mseq (mlit '\\') (mseq (mcls (fun c => c ≠ '\n'))
          (mseq (mlit '\\') (mrep (fun c => c = 'd') 1 2)))))))))

/-- The second guard regex of normalize_date, likewise doubled: a literal
backslash, letters d, a dash, a literal backslash, letters d. -/
def brokenDashGuard : RM :=
  mseq (mlit '\\') (mseq (mrep (fun c => c = 'd') 1 2)
    (mseq (mlit '-') (mseq (mlit '\\') (mrep (fun c => c = 'd') 1 2))))

/-- Replace every occurrence of one character by another, as the Python
str.replace method for single characters. -/
def chrep (a b : Char) (s : List Char) : List Char :=
  s.map (fun c => if c = a then b else c)

/-- Delete every occurrence of one character. -/
def chdel (a : Char) (s : List Char) : List Char :=
  s.filter (fun c => c ≠ a)

/-- Numeric value of a decimal digit character. -/
def digVal (c : Char) : Nat := c.toNat - '0'.toNat

/-- The month alternation of the strptime format: 1 followed by 0 to 2, or
0 followed by 1 to 9, or a single 1 to 9, tried in that order. -/
def parseMonth : List Char → Option (Nat × List Char)
  | '1' :: c :: r =>
    if '0' ≤ c ∧ c ≤ '2' then some (10 + digVal c, r) else some (1, c :: r)
  | '0' :: c :: r =>
    if '1' ≤ c ∧ c ≤ '9' then some (digVal c, r) else none
  | c :: r =>
    if '1' ≤ c ∧ c ≤ '9' then some (digVal c, r) else none
  | [] => none

/-- The day alternation of the strptime format: 30 or 31, or 1x or 2x, or
0 followed by 1 to 9, or a single 1 to 9, tried in that order. -/
def parseDay : List Char → Option (Nat × List Char)
  | '3' :: c :: r =>
    if c = '0' ∨ c = '1' then some (30 + digVal c, r) else some (3, c :: r)
  | '1' :: c :: r =>
    if c.isDigit then some (10 + digVal c, r) else some (1, c :: r)
  | '2' :: c :: r =>
    if c.isDigit then some (20 + digVal c, r) else some (2, c :: r)
  | '0' :: c :: r =>
    if '1' ≤ c ∧ c ≤ '9' then some (digVal c, r) else none
  | c :: r =>
    if '1' ≤ c ∧ c ≤ '9' then some (digVal c, r) else none
  | [] => none

/-- Whether a year is a leap year of the proleptic Gregorian calendar used
by the datetime module. -/
def isLeap (y : Nat) : Bool :=
  (y % 4 = 0 && y % 100 ≠ 0) || y % 400 = 0

/-- Days in a month of a given year. -/
def daysInMonth (y m : Nat) : Nat :=
  if m = 2 then (if isLeap y then 29 else 28)
  else if m = 4 ∨ m = 6 ∨ m = 9 ∨ m = 11 then 30
  else 31

/-- Strict parse of the strptime year-month-day format: exactly four year
digits, dashes, the month and day alternations, the whole input consumed,
and a valid calendar date with year at least one. -/
def strptimeYmd (s : List Char) : Option (Nat × Nat × Nat) :=
  match s with
  | y1 :: y2 :: y3 :: y4 :: '-' :: rest =>
    if y1.isDigit && y2.isDigit && y3.isDigit && y4.isDigit then
      let y := 1000 * digVal y1 + 100 * digVal y2 + 10 * digVal y3 + digVal y4
      match parseMonth rest with
      | some (m, '-' :: rest2) =>
        match parseDay rest2 with
        | some (d, []) =>
          if 1 ≤ y ∧ d ≤ daysInMonth y m then some (y, m, d) else none
        | _ => none
      | _ => none
    else none
  | _ => none

/-- Decimal digits of a number, zero padded on the left to a width. -/
def padNum (width n : Nat) : List Char :=
  let s := (Nat.toDigits 10 n)
  List.replicate (width - s.length) '0' ++ s

/-- utils.normalize_date with the processing year as an explicit parameter:
strip weekday annotations; the dead dot-rewrite guard; rewrite the Chinese
connectors and slashes to dashes or nothing; the dead year-prefix guard;
strict parse, zero-padded on success, the pre-parse string on failure. -/
def normalize_date (year : Nat) (ds0 : List Char) : List Char :=
  let ds1 := stripWeek ds0
  let ds2 := if runFull brokenDotGuard ds1 then chrep '.' '-' ds1 else ds1
  let ds3 := chrep '/' '-' (chdel '号' (chdel '日' (chrep '月' '-' (chrep '年' '-' ds2))))
  let ds4 := if runFull brokenDashGuard ds3 then (Nat.toDigits 10 year) ++ '-' :: ds3 else ds3
  match strptimeYmd ds4 with
  | some (y, m, d) => padNum 4 y ++ '-' :: padNum 2 m ++ '-' :: padNum 2 d
  | none => ds4

/-- The section builder loop of split_daily_report_by_date: each section
spans from the end of its own match to the start of the next match, or the
document end; the text is stripped and empty sections are dropped. -/
def sectionsOf (year : Nat) (text : List Char) : List (Nat × Nat) → List (List Char × List Char)
  | [] => []
  | (a, b) :: rest =>
    let e := match rest with
      | (a2, _) :: _ => a2
      | [] => text.length
    let content := pyStrip (pySlice text b e)
    if content.isEmpty then sectionsOf year text rest
    else (normalize_date year (pySlice text a b), content) :: sectionsOf year text rest

/-- utils.split_daily_report_by_date with the processing year explicit. -/
def split_daily_report_by_date (year : Nat) (text : List Char) : List (List Char × List Char) :=
  sectionsOf year text (sortMatches text)

/-- Declarative form of the section builder, following the specification:
pair every match with the start of the next match in offset order or the
document length, take the stripped span between them, and keep the
nonempty sections. -/
def sectionsSpecOf (year : Nat) (text : List Char) (ms : List (Nat × Nat)) : List (List Char × List Char) :=
  (ms.zip ((ms.tail.map Prod.fst) ++ [text.length])).filterMap (fun me =>
    let content := pyStrip (pySlice text me.1.2 me.2)
    if content.isEmpty then none
    else some (normalize_date year (pySlice text me.1.1 me.1.2), content))

/-- Count of leading characters of a class. -/
def leadCount (p : Char → Bool) (s : List Char) : Nat :=
  (s.takeWhile p).length

/-- The speaker-label regex of utils.split_dialogue exactly as the
interpreter sees it: the pattern raw string doubles every backslash, so
each double-backslash escape denotes a literal backslash and the following
asterisk is a star quantifier.  The pattern is therefore: any run of
literal backslashes, a role name (male or female followed by the person
suffix), a full width or half width colon, then any run of literal
backslashes.  No asterisk characters are matched or consumed.  Returns the
consumed length and the captured role group. -/
def matchRoleLabel (s : List Char) : Option (Nat × List Char) :=
  let k1 := leadCount (fun c => c = '\\') s
  match s.drop k1 with
  | g :: '生' :: c :: r =>
    if (g = '男' || g = '女') && (c = '：' || c = ':') then
      let k2 := leadCount (fun c => c = '\\') r
      some (k1 + 3 + k2, [g, '生'])
    else none
  | _ => none

/-- A speaker-label match: start offset, end offset, captured role. -/
structure DlgMatch where
  start : Nat
  stop : Nat
  role : List Char
deriving Repr, DecidableEq

/-- finditer scan for the speaker-label regex. -/
def dlgFindAux (s : List Char) : Nat → Nat → List DlgMatch
  | 0, _ => []
  | fuel + 1, p =>
    if p ≥ s.length then []
    else
      match matchRoleLabel (s.drop p) with
      | some (n, g) =>
        if n = 0 then dlgFindAux s fuel (p + 1)
        else ⟨p, p + n, g⟩ :: dlgFindAux s fuel (p + n)
      | none => dlgFindAux s fuel (p + 1)

/-- All speaker-label matches in the text. -/
def dlgFind (s : List Char) : List DlgMatch :=
  dlgFindAux s (s.length + 1) 0

/-- The segment accumulation loop of split_dialogue: content runs from the
end of the previous label to the start of the current one, stripped, and
empty contents are dropped; the final segment runs to the end of the
text. -/
def dlgSegsOf (text : List Char) (lastPos : Nat) (lastSpeaker : Option (List Char)) : List DlgMatch → List (List Char × List Char)
  | [] =>
    match lastSpeaker with
    | none => []
    | some sp =>
      let content := pyStrip (text.drop lastPos)
      if content.isEmpty then [] else [(sp, content)]
  | m :: rest =>
    let here := match lastSpeaker with
      | none => []
      | some sp =>
        let content := pyStrip (pySlice text lastPos m.start)
        if content.isEmpty then [] else [(sp, content)]
    here ++ dlgSegsOf text m.stop (some m.role) rest

/-- utils.split_dialogue. -/
def split_dialogue (text : List Char) : List (List Char × List Char) :=
  dlgSegsOf text 0 none (dlgFind text)

/-- utils.concat_audios, with clip loading abstracted: the accumulator
starts from the empty segment and every clip is appended in order; the
export is modelled as returning the combined track.  The function performs
no emptiness check of its own. -/
def concatGo (load : String → Except String (List Int)) : List Int → List String → Except String (List Int)
  | acc, [] => Except.ok acc
  | acc, p :: ps =>
    match load p with
    | Except.ok seg => concatGo load (acc ++ seg) ps
    | Except.error e => Except.error e

/-- utils.concat_audios on a list of clip paths. -/
def concat_audios (load : String → Except String (List Int)) (audio_paths : List String) : Except String (List Int) :=
  concatGo load [] audio_paths

/-- Errors of the audio synthesis endpoint, one distinct constructor per
distinct raised condition. -/
inductive AudioErr where
  | noDialogue
  | synthesisFailed (idx : Nat)
  | concatFailed
deriving Repr, DecidableEq

/-- The temporary clip path created for one turn, as the join of the audio
directory with the temp file name built from the file id and index. -/
def tempPath (fid : String) (idx : Nat) : String :=
  "audio_files/temp_" ++ fid ++ "_" ++ toString idx ++ ".mp3"

/-- Result of one synthesis loop run: the failing index if any, the
temporary paths appended so far, the file system contents, and the number
of synthesis calls attempted. -/
structure LoopRes where
  err : Option Nat
  temps : List String
  files : List String
  attempts : Nat
deriving Repr, DecidableEq

/-- The per-turn synthesis loop of api.convert_docx_to_audio.  The speech
synthesis adapter is abstracted by a success predicate per call index; a
successful call creates the temporary clip file and only then is its path
appended to the cleanup list, a failing call creates nothing and aborts the
loop. -/
def synthLoop (ttsOk : Nat → Bool) (fid : String) : List (List Char × List Char) → Nat → List String → List String → Nat → LoopRes
  | [], _, temps, files, att => ⟨none, temps, files, att⟩
  | _ :: rest, idx, temps, files, att =>
    let p := tempPath fid idx
    if ttsOk idx then synthLoop ttsOk fid rest (idx + 1) (temps ++ [p]) (p :: files) (att + 1)
    else ⟨some idx, temps, files, att + 1⟩

/-- The finally block of convert_docx_to_audio: remove every recorded
temporary path from the file system. -/
def cleanupTemps (temps files : List String) : List String :=
  files.filter (fun f => !(temps.contains f))

instance {ε α : Type} [DecidableEq ε] [DecidableEq α] : DecidableEq (Except ε α) := fun x y =>
  match x, y with
  | Except.ok a, Except.ok b =>
    if h : a = b then isTrue (by subst h; rfl) else isFalse (fun hc => h (Except.ok.inj hc))
  | Except.ok _, Except.error _ => isFalse (fun hc => Except.noConfusion hc)
  | Except.error _, Except.ok _ => isFalse (fun hc => Except.noConfusion hc)
  | Except.error a, Except.error b =>
    if h : a = b then isTrue (by subst h; rfl) else isFalse (fun hc => h (Except.error.inj hc))

/-- Outcome of the synthesis endpoint: the response or error, the file
system contents after return, and how many synthesis and concatenation
calls were made. -/
structure SynthRes where
  result : Except AudioErr String
  files : List String
  ttsAttempts : Nat
  concatAttempts : Nat
deriving Repr, DecidableEq

/-- api.convert_docx_to_audio from the segmentation step on: empty
segmentation raises the distinct no-dialogue error before any synthesis;
otherwise every turn is synthesized to a temporary clip, the clips are
concatenated, and the finally block removes every recorded temporary path
on success and on every failure path alike. -/
def convert_docx_to_audio (ttsOk : Nat → Bool) (concatOk : Bool) (fid outName : String) (text : List Char) (files0 : List String) : SynthRes :=
  let segments := split_dialogue text
  if segments.isEmpty then ⟨Except.error AudioErr.noDialogue, files0, 0, 0⟩
  else
    let r := synthLoop ttsOk fid segments 0 [] files0 0
    match r.err with
    | some i => ⟨Except.error (AudioErr.synthesisFailed i), cleanupTemps r.temps r.files, r.attempts, 0⟩
    | none =>
      let outPath := "audio_files/" ++ outName
      if concatOk then ⟨Except.ok outPath, cleanupTemps r.temps (outPath :: r.files), r.attempts, 1⟩
      else ⟨Except.error AudioErr.concatFailed, cleanupTemps r.temps r.files, r.attempts, 1⟩

/-- The temporary clip paths created by one invocation of
convert_docx_to_audio: those recorded by its synthesis loop. -/
def tempsCreated (ttsOk : Nat → Bool) (fid : String) (text : List Char) (files0 : List String) : List String :=
  let segments := split_dialogue text
  if segments.isEmpty then []
  else (synthLoop ttsOk fid segments 0 [] files0 0).temps

/-- The per-section summarization loop of api.analyze_daily_report: each
section is summarized in order and an adapter error propagates out of the
loop immediately, discarding the partial timeline. -/
def digest_timeline (summarize : List Char → List Char → Except String (List Char)) : List (List Char × List Char) → Except String (List (List Char × List Char))
  | [] => Except.ok []
  | (d, c) :: rest =>
    match summarize d c with
    | Except.error e => Except.error e
    | Except.ok s =>
      match digest_timeline summarize rest with
      | Except.error e => Except.error e
      | Except.ok t => Except.ok ((d, s) :: t)

/-- Lexicographic string order on code points, as the Python sort key. -/
def leStr : List Char → List Char → Bool
  | [], _ => true
  | _ :: _, [] => false
  | x :: xs, y :: ys => if x < y then true else if x = y then leStr xs ys else false

/-- Order on timeline entries by date string, as the Python sort key. -/
def dateLE (a b : List Char × List Char) : Prop := leStr a.1 b.1 = true

instance : DecidableRel dateLE := fun a b => Bool.decEq (leStr a.1 b.1) true

/-- api.analyze_daily_report from the segmentation step on: split by date,
summarize each section through the external adapter, sort the timeline by
date.  An adapter exception propagates and no timeline is returned.  The
Python sort is stable; insertion sort agrees with it on every input. -/
def analyze_daily_report (summarize : List Char → List Char → Except String (List Char)) (year : Nat) (text : List Char) : Except String (List (List Char × List Char)) :=
  match digest_timeline summarize (split_daily_report_by_date year text) with
  | Except.ok t => Except.ok (t.insertionSort dateLE)
  | Except.error e => Except.error e

/-!
Theorems.  Helper lemmas first, then one theorem per claim, each with its
witness where the statement carries a hypothesis.
-/

theorem clean_markdown_sublist : ∀ l : List Char, (clean_markdown l).Sublist l := by
  intro l
  induction l using clean_markdown.induct with
  | case1 => simp [clean_markdown]
  | case2 r ih => simp [clean_markdown]; exact ih.trans ((r.sublist_cons_self '*').trans (List.sublist_cons_self _ _))
  | case3 r h ih => simp [clean_markdown]; exact ih.trans (List.sublist_cons_self _ _)
  | case4 r ih => simp [clean_markdown]; exact ih.trans ((r.sublist_cons_self '_').trans (List.sublist_cons_self _ _))
  | case5 r ih => simp [clean_markdown]; exact ih.trans (List.sublist_cons_self _ _)
  | case6 c r h1 h2 h3 h4 ih =>
    have he : clean_markdown (c :: r) = c :: clean_markdown r := by simp [clean_markdown]
    rw [he]
    exact ih.cons₂ c

theorem clean_markdown_no_star : ∀ l : List Char, '*' ∉ clean_markdown l := by
  intro l
  induction l using clean_markdown.induct with
  | case1 => simp [clean_markdown]
  | case2 r ih => simpa [clean_markdown] using ih
  | case3 r h ih => simpa [clean_markdown] using ih
  | case4 r ih => simpa [clean_markdown] using ih
  | case5 r ih => simpa [clean_markdown] using ih
  | case6 c r h1 h2 h3 h4 ih =>
    have he : clean_markdown (c :: r) = c :: clean_markdown r := by simp [clean_markdown]
    rw [he]
    intro hmem
    rcases List.mem_cons.mp hmem with h | h
    · exact h2 h.symm
    · exact ih h

theorem clean_markdown_no_tick : ∀ l : List Char, '`' ∉ clean_markdown l := by
  intro l
  induction l using clean_markdown.induct with
  | case1 => simp [clean_markdown]
  | case2 r ih => simpa [clean_markdown] using ih
  | case3 r h ih => simpa [clean_markdown] using ih
  | case4 r ih => simpa [clean_markdown] using ih
  | case5 r ih => simpa [clean_markdown] using ih
  | case6 c r h1 h2 h3 h4 ih =>
    have he : clean_markdown (c :: r) = c :: clean_markdown r := by simp [clean_markdown]
    rw [he]
    intro hmem
    rcases List.mem_cons.mp hmem with h | h
    · exact h4 h.symm
    · exact ih h

theorem clean_markdown_fix : ∀ l : List Char, '*' ∉ l → '`' ∉ l → '_' ∉ l → clean_markdown l = l := by
  intro l
  induction l with
  | nil => intro _ _ _; rfl
  | cons c r ih =>
    intro hs ht hu
    have hcs : c ≠ '*' := fun h => hs (h ▸ List.mem_cons_self c r)
    have hct : c ≠ '`' := fun h => ht (h ▸ List.mem_cons_self c r)
    have hcu : c ≠ '_' := fun h => hu (h ▸ List.mem_cons_self c r)
    have he : clean_markdown (c :: r) = c :: clean_markdown r := by
      simp [clean_markdown, hcs, hct, hcu]
    rw [he, ih (fun h => hs (List.mem_cons_of_mem c h)) (fun h => ht (List.mem_cons_of_mem c h)) (fun h => hu (List.mem_cons_of_mem c h))]

theorem clean_markdown_count (ch : Char) : ∀ l : List Char, ch ≠ '*' → ch ≠ '_' → ch ≠ '`' → (clean_markdown l).count ch = l.count ch := by
  intro l
  induction l using clean_markdown.induct with
  | case1 => intro _ _ _; rfl
  | case2 r ih => intro h1 h2 h3; simp [clean_markdown, List.count_cons, ih h1 h2 h3, h1]
  | case3 r h ih => intro h1 h2 h3; simp [clean_markdown, List.count_cons, ih h1 h2 h3, h1]
  | case4 r ih => intro h1 h2 h3; simp [clean_markdown, List.count_cons, ih h1 h2 h3, h2]
  | case5 r ih => intro h1 h2 h3; simp [clean_markdown, List.count_cons, ih h1 h2 h3, h3]
  | case6 c r hh1 hh2 hh3 hh4 ih =>
    intro h1 h2 h3
    have he : clean_markdown (c :: r) = c :: clean_markdown r := by simp [clean_markdown]
    rw [he]
    simp [List.count_cons, ih h1 h2 h3]

theorem clean_markdown_count_underscore : ∀ l : List Char, hasDoubleUnderscore l = false → (clean_markdown l).count '_' = l.count '_' := by
  intro l
  induction l using clean_markdown.induct with
  | case1 => intro _; rfl
  | case2 r ih =>
    intro h
    have hr : hasDoubleUnderscore r = false := by simpa [hasDoubleUnderscore] using h
    simp [clean_markdown, List.count_cons, ih hr]
  | case3 r h ih =>
    intro hd
    have hr : hasDoubleUnderscore r = false := by simpa [hasDoubleUnderscore] using hd
    simp [clean_markdown, List.count_cons, ih hr]
  | case4 r ih =>
    intro hd
    exact absurd hd (by simp [hasDoubleUnderscore])
  | case5 r ih =>
    intro hd
    have hr : hasDoubleUnderscore r = false := by simpa [hasDoubleUnderscore] using hd
    simp [clean_markdown, List.count_cons, ih hr]
  | case6 c r hh1 hh2 hh3 hh4 ih =>
    intro hd
    have hr : hasDoubleUnderscore r = false := by
      cases r with
      | nil => rfl
      | cons x xs => simpa [hasDoubleUnderscore] using hd
    have he : clean_markdown (c :: r) = c :: clean_markdown r := by simp [clean_markdown]
    rw [he]
    simp [List.count_cons, ih hr]

/-- Claim C2, counterexample: clean_markdown is not idempotent.  On the
input of an underscore, asterisk, underscore, asterisk, underscore, the
first pass removes the two lone asterisks, making the three underscores
adjacent; the second pass then removes a double-underscore pair. -/
theorem clean_markdown_not_idempotent :
    clean_markdown (clean_markdown "_*_*_".data) ≠ clean_markdown "_*_*_".data := by decide

/-- Claim C2, amended: clean_markdown is idempotent on every input that
contains no underscore character; the output of a first pass then contains
no asterisk, backtick or underscore, so a second pass removes nothing. -/
theorem clean_markdown_idempotent_of_no_underscore :
    ∀ l : List Char, '_' ∉ l → clean_markdown (clean_markdown l) = clean_markdown l := by
  intro l hu
  refine clean_markdown_fix _ (clean_markdown_no_star l) (clean_markdown_no_tick l) ?_
  intro hmem
  exact hu ((clean_markdown_sublist l).mem hmem)

/-- Claim C2, witness for the amended theorem at a concrete input. -/
theorem clean_markdown_idempotent_witness :
    '_' ∉ "**a*b`c".data ∧ clean_markdown (clean_markdown "**a*b`c".data) = clean_markdown "**a*b`c".data :=
  ⟨by decide, clean_markdown_idempotent_of_no_underscore "**a*b`c".data (by decide)⟩

/-- Claim C10: the single left-to-right pass of clean_markdown yields a
subsequence of the input; it removes every asterisk and backtick; it
preserves the count of every character other than the three delimiter
characters; it preserves every underscore not adjacent to another
underscore, and in particular a lone underscore survives. -/
theorem clean_markdown_single_pass :
    ∀ l : List Char,
      (clean_markdown l).Sublist l
      ∧ '*' ∉ clean_markdown l
      ∧ '`' ∉ clean_markdown l
      ∧ (∀ c : Char, c ≠ '*' → c ≠ '_' → c ≠ '`' → (clean_markdown l).count c = l.count c)
      ∧ (hasDoubleUnderscore l = false → (clean_markdown l).count '_' = l.count '_') := by
  intro l
  exact ⟨clean_markdown_sublist l, clean_markdown_no_star l, clean_markdown_no_tick l,
    fun c h1 h2 h3 => clean_markdown_count c l h1 h2 h3,
    fun hd => clean_markdown_count_underscore l hd⟩

/-- Claim C10, witness at a concrete input holding a lone underscore. -/
theorem clean_markdown_single_pass_witness :
    (clean_markdown "a_b**c".data).count 'a' = "a_b**c".data.count 'a'
    ∧ (clean_markdown "a_b**c".data).count '_' = "a_b**c".data.count '_' :=
  ⟨(clean_markdown_single_pass "a_b**c".data).2.2.2.1 'a' (by decide) (by decide) (by decide),
   (clean_markdown_single_pass "a_b**c".data).2.2.2.2 (by decide)⟩

theorem sectionsOf_eq_spec (year : Nat) (text : List Char) :
    ∀ ms : List (Nat × Nat), sectionsOf year text ms = sectionsSpecOf year text ms := by
  intro ms
  induction ms with
  | nil => rfl
  | cons m rest ih =>
    obtain ⟨a, b⟩ := m
    cases rest with
    | nil =>
      simp only [sectionsOf, sectionsSpecOf, List.tail_cons, List.map_nil, List.nil_append,
        List.zip_cons_cons, List.zip_nil_right, List.filterMap_cons, List.filterMap_nil]
      split <;> simp_all
    | cons m2 rest2 =>
      simp only [sectionsOf, sectionsSpecOf, List.tail_cons, List.map_cons, List.cons_append,
        List.zip_cons_cons, List.filterMap_cons] at ih ⊢
      split <;> simp_all

theorem sectionsOf_nonempty (year : Nat) (text : List Char) :
    ∀ ms sec, sec ∈ sectionsOf year text ms → sec.2.isEmpty = false := by
  intro ms
  induction ms with
  | nil => intro sec h; simp [sectionsOf] at h
  | cons m rest ih =>
    obtain ⟨a, b⟩ := m
    intro sec h
    simp only [sectionsOf] at h
    split at h
    · exact ih sec h
    · rcases List.mem_cons.mp h with h1 | h1
      · subst h1
        simp_all
      · exact ih sec h1

/-- Claim C9: the sections returned by split_daily_report_by_date are built
from the matches of all recognizers, collected without deduplication and
sorted by start offset; each section text is the stripped source span from
the end of its own match to the start of the next match in offset order or
the document end; sections empty after stripping are dropped. -/
theorem split_daily_report_ordered_sections :
    ∀ (year : Nat) (text : List Char),
      List.Pairwise (fun a b : Nat × Nat => a.1 ≤ b.1) (sortMatches text)
      ∧ split_daily_report_by_date year text = sectionsSpecOf year text (sortMatches text)
      ∧ ∀ sec ∈ split_daily_report_by_date year text, sec.2.isEmpty = false := by
  intro year text
  refine ⟨?_, sectionsOf_eq_spec year text _, fun sec h => sectionsOf_nonempty year text _ sec h⟩
  exact List.sorted_insertionSort startLE (collectMatches text)

/-- Claim C9, witness at a concrete two-day report. -/
theorem split_daily_report_ordered_sections_witness :
    (("24-05".data, "-01 alpha".data) : List Char × List Char).2.isEmpty = false :=
  (split_daily_report_ordered_sections 2025 "2024-05-01 alpha 2024-05-02 beta".data).2.2 _ (by decide)

theorem digest_timeline_error_of_mem (summ : List Char → List Char → Except String (List Char)) :
    ∀ (secs : List (List Char × List Char)) sec e, sec ∈ secs → summ sec.1 sec.2 = Except.error e →
      ∃ e2, digest_timeline summ secs = Except.error e2 := by
  intro secs
  induction secs with
  | nil => intro sec e h _; simp at h
  | cons p rest ih =>
    intro sec e hmem herr
    obtain ⟨d, c⟩ := p
    rcases List.mem_cons.mp hmem with h | h
    · subst h
      exact ⟨e, by simp [digest_timeline, herr]⟩
    · cases hs : summ d c with
      | error e0 => exact ⟨e0, by simp [digest_timeline, hs]⟩
      | ok s =>
        obtain ⟨e2, h2⟩ := ih sec e h herr
        exact ⟨e2, by simp [digest_timeline, hs, h2]⟩

/-- Claim C5, counterexample: on a report with two date sections, an
adapter error on one section makes analyze_daily_report return that error;
no digest entry for the other section is visible to the caller. -/
theorem analyze_daily_report_counterexample :
    analyze_daily_report
      (fun _ c => if c = "-01 alpha".data then Except.error "adapter" else Except.ok "ok".data)
      2025 "2024-05-01 alpha 2024-05-02 beta".data = Except.error "adapter" := by decide

/-- Claim C5, amended: an adapter error raised while summarizing any one
section aborts the whole digest; the caller receives an error and no
partial timeline. -/
theorem analyze_daily_report_aborts :
    ∀ (summ : List Char → List Char → Except String (List Char)) (year : Nat) (text : List Char) sec e,
      sec ∈ split_daily_report_by_date year text →
      summ sec.1 sec.2 = Except.error e →
      ∃ e2, analyze_daily_report summ year text = Except.error e2 := by
  intro summ year text sec e hmem herr
  obtain ⟨e2, h2⟩ := digest_timeline_error_of_mem summ _ sec e hmem herr
  exact ⟨e2, by simp [analyze_daily_report, h2]⟩

/-- Claim C5, witness for the amended theorem at a concrete input. -/
theorem analyze_daily_report_aborts_witness :
    ∃ e2, analyze_daily_report
      (fun _ c => if c = "-01 alpha".data then Except.error "adapter" else Except.ok "ok".data)
      2025 "2024-05-01 alpha 2024-05-02 beta".data = Except.error e2 :=
  analyze_daily_report_aborts _ 2025 _ ("24-05".data, "-01 alpha".data) "adapter" (by decide) (by decide)

theorem not_mem_cleanupTemps (temps files : List String) (p : String) (hp : p ∈ temps) :
    p ∉ cleanupTemps temps files := by
  intro hmem
  have h := (List.mem_filter.mp hmem).2
  have h2 : temps.contains p = false := by simpa using h
  have h3 : p ∉ temps := by simpa using h2
  exact h3 hp

theorem synthLoop_err_cases (ttsOk : Nat → Bool) (fid : String) :
    ∀ (segs : List (List Char × List Char)) (idx : Nat) (temps files : List String) (att : Nat),
      (synthLoop ttsOk fid segs idx temps files att).err = none
      ∨ ∃ i, (synthLoop ttsOk fid segs idx temps files att).err = some i := by
  intro segs
  induction segs with
  | nil => intro idx temps files att; exact Or.inl rfl
  | cons s rest ih =>
    intro idx temps files att
    by_cases h : ttsOk idx
    · simpa [synthLoop, h] using ih (idx + 1) (temps ++ [tempPath fid idx]) (tempPath fid idx :: files) (att + 1)
    · exact Or.inr ⟨idx, by simp [synthLoop, h]⟩

/-- Claim C6: every temporary clip recorded by the synthesis loop of one
invocation of convert_docx_to_audio is absent from the file system when the
pipeline returns, on the success path and on both failure paths, because
the finally block removes every recorded path unconditionally. -/
theorem convert_docx_to_audio_cleanup :
    ∀ (ttsOk : Nat → Bool) (concatOk : Bool) (fid outName : String) (text : List Char) (files0 : List String) (p : String),
      p ∈ tempsCreated ttsOk fid text files0 →
      p ∉ (convert_docx_to_audio ttsOk concatOk fid outName text files0).files := by
  intro ttsOk concatOk fid outName text files0 p hp
  unfold tempsCreated at hp
  unfold convert_docx_to_audio
  by_cases hseg : (split_dialogue text).isEmpty
  · simp [hseg] at hp
  · simp only [hseg, if_false] at hp ⊢
    rcases synthLoop_err_cases ttsOk fid (split_dialogue text) 0 [] files0 0 with he | ⟨i, he⟩
    · rw [he]
      by_cases hc : concatOk
      · simpa [hc] using not_mem_cleanupTemps _ _ p hp
      · simpa [hc] using not_mem_cleanupTemps _ _ p hp
    · rw [he]
      simpa using not_mem_cleanupTemps _ _ p hp

/-- Claim C6, witness: a two-turn dialogue whose concatenation step fails;
the first temporary clip was created and is gone from the final file
system. -/
theorem convert_docx_to_audio_cleanup_witness :
    tempPath "f" 0 ∈ tempsCreated (fun _ => true) "f" "**女生:**你好 **男生:**你好啊".data []
    ∧ tempPath "f" 0 ∉ (convert_docx_to_audio (fun _ => true) false "f" "out.mp3" "**女生:**你好 **男生:**你好啊".data []).files :=
  ⟨by decide,
   convert_docx_to_audio_cleanup (fun _ => true) false "f" "out.mp3" _ [] (tempPath "f" 0) (by decide)⟩

/-- Claim C8: when the dialogue segmenter yields zero turns,
convert_docx_to_audio fails with the distinct no-dialogue error, leaves the
file system untouched, and performs no synthesis call and no concatenation
call. -/
theorem convert_docx_to_audio_no_dialogue :
    ∀ (ttsOk : Nat → Bool) (concatOk : Bool) (fid outName : String) (text : List Char) (files0 : List String),
      split_dialogue text = [] →
      convert_docx_to_audio ttsOk concatOk fid outName text files0 =
        ⟨Except.error AudioErr.noDialogue, files0, 0, 0⟩ := by
  intro _ _ _ _ text files0 h
  simp [convert_docx_to_audio, h]

/-- Claim C8, witness: a text with no speaker label yields zero turns and
the no-dialogue outcome. -/
theorem convert_docx_to_audio_no_dialogue_witness :
    split_dialogue "hello".data = []
    ∧ convert_docx_to_audio (fun _ => true) true "f" "out.mp3" "hello".data ["keep"] =
        ⟨Except.error AudioErr.noDialogue, ["keep"], 0, 0⟩ :=
  ⟨by decide, convert_docx_to_audio_no_dialogue (fun _ => true) true "f" "out.mp3" "hello".data ["keep"] (by decide)⟩

/-- Claim C7, counterexample: called on an empty clip list, concat_audios
returns the empty output track; it makes no loading call and raises no
error, so there is no distinct empty-clip-set failure. -/
theorem concat_audios_empty_counterexample :
    concat_audios (fun _ => Except.error "unread") [] = Except.ok [] := rfl

/-- Claim C7, amended: concat_audios on an empty clip list succeeds for
every clip loader, producing the empty output track of zero duration. -/
theorem concat_audios_empty_ok :
    ∀ load : String → Except String (List Int), concat_audios load [] = Except.ok [] :=
  fun _ => rfl

/-- Claim C1: evaluation of split_dialogue at the dialogue text of the
claim.  The pattern raw string doubles its backslashes, so the regex
matches runs of literal backslashes rather than the asterisk emphasis
markers; the label matches consume only the role name and colon, and the
asterisks remain inside the turn texts. -/
theorem split_dialogue_eval :
    split_dialogue "**女生:**你好 **男生:**你好啊".data =
      [("女生".data, "**你好 **".data), ("男生".data, "**你好啊".data)]
    ∧ ∃ turn ∈ split_dialogue "**女生:**你好 **男生:**你好啊".data, '*' ∈ turn.2 := by decide

/-- Claim C3: evaluation of normalize_date at the dotted date token.  The
dot-rewrite guard regex doubles its backslashes and so requires literal
backslash characters; it never matches, the dots are never rewritten, the
strict parse fails, and the token is returned with only the weekday
annotation stripped. -/
theorem normalize_date_dotted_eval :
    normalize_date 2025 "2025.7.14（一）".data = "2025.7.14".data
    ∧ normalize_date 2025 "2025.7.14（一）".data ≠ "2025-07-14".data := by decide

/-- Claim C4: evaluation of normalize_date at a token without a year.  The
year-prefix guard regex doubles its backslashes and so requires literal
backslash characters; it never matches, the processing year is never
prefixed, the strict parse fails, and the connector-rewritten token is
returned without a year. -/
theorem normalize_date_no_year_eval :
    normalize_date 2025 "7月14日".data = "7-14".data
    ∧ normalize_date 2025 "7月14日".data ≠ "2025-07-14".data := by decide
